import Mathlib

/-!
Shallow embedding of the telemetry ingestion core of `telemetry-ingestor-rs`.

The embedding follows the source files:
- `src/app.rs`           : `SignalKind`
- `src/models/telemetry.rs` : `TelemetryRequest`, `parse_timestamp`
- `src/routes/telemetry.rs` : `ingest_telemetry`, `internal_err`
- `src/db/postgres.rs`   : `load_signal_registry`, `vessel_exists`,
  `insert_raw`, `insert_filtered`, `insert_metrics`

Modelling conventions:
- `serde_json::Value` becomes the inductive `Json`; `serde_json::Number`
  becomes `JsonNum` with the three serde representations (`PosInt`/u64,
  `NegInt`/negative i64, `Float`/finite f64).  JSON parsing can never
  produce a NaN or infinite number, so every `Float` payload is a finite
  double, modelled exactly as a rational (`ℚ`).  Conversions between the
  representations (`as_i64`, `as_u64`, `as_f64`) follow serde; the
  integer→f64 casts (`n as f64`) round to the nearest double with ties
  to even, modelled by `nat_as_f64`/`int_as_f64` (exact below 2^53),
  and the wrapping u64→i64 cast (`u as i64` in the Rust source) is
  modelled by `u64_as_i64`.
- The Rust `f64::NAN` placeholder stored for mismatched values becomes
  the dedicated constructor `FVal.nan`.
- The database and the clock become an explicit environment `Env`:
  each storage call has a success oracle and a duration, and the
  pipeline threads the list of committed writes plus an accumulated
  clock, mirroring the `Instant::now` measurement points of the handler.
-/

namespace TelemetryIngestor

/-- Kind of a registered signal (`SignalKind` in `src/app.rs`). -/
inductive SignalKind
  | Digital
  | Analog
deriving DecidableEq

/-- A `serde_json::Number`: serde stores a non-negative integer as u64
(`posInt`), a negative integer as i64 (`negInt`) and everything else as a
finite f64 (`float`, modelled exactly as a rational). -/
inductive JsonNum
  | posInt (n : Nat)
  | negInt (i : Int)
  | float (q : ℚ)
deriving DecidableEq

/-- serde `Number::is_i64`. -/
def JsonNum.is_i64 : JsonNum → Bool
  | .posInt n => decide (n ≤ 2 ^ 63 - 1)
  | .negInt _ => true
  | .float _ => false

/-- serde `Number::is_u64`. -/
def JsonNum.is_u64 : JsonNum → Bool
  | .posInt _ => true
  | _ => false

/-- serde `Number::is_f64`. -/
def JsonNum.is_f64 : JsonNum → Bool
  | .float _ => true
  | _ => false

/-- serde `Number::as_i64`. -/
def JsonNum.as_i64 : JsonNum → Option Int
  | .posInt n => if n ≤ 2 ^ 63 - 1 then some (n : Int) else none
  | .negInt i => some i
  | .float _ => none

/-- serde `Number::as_u64`. -/
def JsonNum.as_u64 : JsonNum → Option Nat
  | .posInt n => some n
  | _ => none

/-- Exponent of the unit in the last place of the double nearest to a
natural number below 2^64: doubles carry 53 significand bits, so values
below 2^53 are exact and a value with k+1 bits (k ≥ 53) lands on a
multiple of 2^(k-52). -/
def f64ulpExp (n : Nat) : Nat :=
  if n < 2 ^ 53 then 0
  else if n < 2 ^ 54 then 1
  else if n < 2 ^ 55 then 2
  else if n < 2 ^ 56 then 3
  else if n < 2 ^ 57 then 4
  else if n < 2 ^ 58 then 5
  else if n < 2 ^ 59 then 6
  else if n < 2 ^ 60 then 7
  else if n < 2 ^ 61 then 8
  else if n < 2 ^ 62 then 9
  else if n < 2 ^ 63 then 10
  else 11

/-- The Rust cast `as f64` of a natural number below 2^64, as the exact
integer value of the resulting double: round to the nearest multiple of
the unit in the last place, ties to the even multiple. -/
def nat_as_f64 (n : Nat) : Nat :=
  let e := f64ulpExp n
  if e = 0 then n
  else
    let q := n / 2 ^ e
    let r := n % 2 ^ e
    let half := 2 ^ (e - 1)
    (if r < half then q
     else if half < r then q + 1
     else if q % 2 = 0 then q else q + 1) * 2 ^ e

/-- The Rust cast `as f64` of an integer of magnitude below 2^64 (f64
rounding is symmetric in the sign). -/
def int_as_f64 (i : Int) : Int :=
  if 0 ≤ i then (nat_as_f64 i.toNat : Int) else -(nat_as_f64 (-i).toNat : Int)

/-- serde `Number::as_f64` (total on the three serde representations):
on the integer representations it performs the rounding `as f64` cast,
exact for magnitudes up to 2^53. -/
def JsonNum.as_f64 : JsonNum → ℚ
  | .posInt n => ((nat_as_f64 n : Nat) : ℚ)
  | .negInt i => ((int_as_f64 i : Int) : ℚ)
  | .float q => q

/-- A `serde_json::Value` as it can appear in the `signals` map.  Arrays
and objects are never inspected beyond their non-number shape, so their
payloads are dropped. -/
inductive Json
  | num (n : JsonNum)
  | str (s : String)
  | bool (b : Bool)
  | null
  | arr
  | obj
deriving DecidableEq

/-- The Rust wrapping cast `u as i64` applied to a u64 value `n < 2^64`. -/
def u64_as_i64 (n : Nat) : Int :=
  if n < 2 ^ 63 then (n : Int) else (n : Int) - 2 ^ 64

/-- The integer `v` computed in the digital branch of `ingest_telemetry`
(`src/routes/telemetry.rs` lines 51-57): `as_i64` if it succeeds, else
the wrapping u64→i64 cast of `as_u64`, else `-1`. -/
def digitalIntView (n : JsonNum) : Int :=
  match n.as_i64 with
  | some i => i
  | none =>
    match n.as_u64 with
    | some u => u64_as_i64 u
    | none => -1

/-- Quarantine reason strings used by `ingest_telemetry`. -/
inductive Reason
  | type_mismatch
  | out_of_range
  | unknown_signal
deriving DecidableEq

/-- A stored 64-bit float value: either the NaN placeholder or a finite
value (modelled as a rational). -/
inductive FVal
  | nan
  | val (q : ℚ)
deriving DecidableEq

/-- Per-reading classification outcome (§4.2 of the spec): accepted with
a finite value, or quarantined with a stored value and a reason. -/
inductive Outcome
  | accepted (value : ℚ)
  | quarantined (value : FVal) (reason : Reason)
deriving DecidableEq

/-- The per-reading decision logic of the loop body of `ingest_telemetry`
(`src/routes/telemetry.rs` lines 40-129), with the `insert_filtered`
side effects replaced by the `Outcome.quarantined` constructor and the
`valid_signals.push` by `Outcome.accepted`.  The branch structure mirrors
the Rust `match (kind, value)` with its `is_f64` guard and the outer
`Some`/`None` match on the registry lookup; the stored `v as f64` of the
digital out-of-range arm is the rounding cast `int_as_f64`, and the
unknown-signal arm stores serde's rounding `as_f64`. -/
def classify (kind : Option SignalKind) (value : Json) : Outcome :=
  match kind, value with
  | some .Digital, .num n =>
    if n.is_i64 || n.is_u64 then
      let v := digitalIntView n
      if v = 0 ∨ v = 1 then
        .accepted (if v = 1 then (1 : ℚ) else (0 : ℚ))
      else
        .quarantined (.val ((int_as_f64 v : Int) : ℚ)) .out_of_range
    else
      .quarantined .nan .type_mismatch
  | some .Analog, .num n =>
    if n.is_f64 then
      let val_f := n.as_f64
      if (1 : ℚ) ≤ val_f ∧ val_f ≤ (65535 : ℚ) then
        .accepted val_f
      else
        .quarantined (.val val_f) .out_of_range
    else
      .quarantined .nan .type_mismatch
  | some _, _ => .quarantined .nan .type_mismatch
  | none, v =>
    .quarantined (match v with | .num n => .val n.as_f64 | _ => .nan) .unknown_signal

/-- Whether a `Json` value is a float-represented number (`is_f64`). -/
def isFloatJson : Json → Bool
  | .num n => n.is_f64
  | _ => false

/-- Whether a `Json` value is numeric (a `serde_json::Value::Number`). -/
def isNumericJson : Json → Bool
  | .num _ => true
  | _ => false

/-- The registry loader `load_signal_registry` (`src/db/postgres.rs`
lines 14-36), over the list of `(signal_name, signal_type)` rows read
from `signal_register_table` (row decoding is abstracted away): every
row is inserted, mapping `"digital"` to `Digital`, `"analog"` to
`Analog`, and any other string to `Analog` via the catch-all arm. -/
def load_signal_registry (rows : List (String × String)) : String → Option SignalKind :=
  rows.foldl
    (fun map r =>
      let kind :=
        if r.2 = "digital" then SignalKind.Digital
        else if r.2 = "analog" then SignalKind.Analog
        else SignalKind.Analog
      fun x => if x = r.1 then some kind else map x)
    (fun _ => none)

/-- The request body `TelemetryRequest` (`src/models/telemetry.rs`).
The `signals` HashMap becomes its list of entries (iteration order is
made explicit; the invariants proved below hold for every order). -/
structure TelemetryRequest where
  vesselId : String
  timestampUTC : String
  epochUTC : Option Int
  signals : List (String × Json)

/-- An instant, the result of parsing an RFC-3339 timestamp. -/
abbrev Timestamp := Int

/-- One committed database write: a `filtered_raw` row (`insert_filtered`),
a `main_raw` row (`insert_raw`) or a `server_metrics` row
(`insert_metrics`), with the bound column values. -/
inductive Write
  | filtered (vesselId : String) (ts : Timestamp) (name : String) (value : FVal) (reason : Reason)
  | raw (vesselId : String) (ts : Timestamp) (name : String) (value : ℚ)
  | metrics (vesselId : String) (validationMs : Nat) (ingestionMs : Nat) (totalMs : Nat)
deriving DecidableEq

/-- An error response `(StatusCode, String)`. -/
structure ErrResp where
  status : Nat
  message : String
deriving DecidableEq

/-- The success response body built at the end of `ingest_telemetry`. -/
structure OkResp where
  ok : Bool
  vesselId : String
  validSignals : Nat
  validationMs : Nat
  ingestionMs : Nat
  totalMs : Nat
deriving DecidableEq

/-- The external world of one request: the registry snapshot, the chrono
RFC-3339 parser, the vessel store (`Except.error` models a database
failure of `vessel_exists`, `Except.ok` its boolean answer), a success
oracle and a duration for every insert, and the durations of the two
non-insert phases (the work before `validation_start` is taken, and the
awaited `vessel_exists` call). -/
structure Env where
  signal_registry : String → Option SignalKind
  parse_timestamp : String → Option Timestamp
  vessel_exists : String → Except Unit Bool
  writeOk : Write → Bool
  writeCost : Write → Nat
  vesselCost : Nat
  startCost : Nat

/-- The constant error of `internal_err` (`src/routes/telemetry.rs`
lines 174-180): the underlying error is logged and discarded, the caller
always sees status 500 with this fixed message. -/
def internal_err : ErrResp := ⟨500, "Internal Server Error"⟩

/-- The signal loop of `ingest_telemetry` (lines 40-130): walks the
signal entries, pushing accepted readings onto `valid_signals` and
committing an `insert_filtered` write per quarantined reading; a failing
insert aborts with the writes committed so far.  The third state
component is the clock. -/
def ingestLoop (env : Env) (vessel : String) (ts : Timestamp) :
    List (String × Json) → List (String × ℚ) × List Write × Nat →
    Except (List Write) (List (String × ℚ) × List Write × Nat)
  | [], st => .ok st
  | (name, value) :: rest, (acc, tr, clk) =>
    match classify (env.signal_registry name) value with
    | .accepted q => ingestLoop env vessel ts rest (acc ++ [(name, q)], tr, clk)
    | .quarantined fv r =>
      let w := Write.filtered vessel ts name fv r
      if env.writeOk w then
        ingestLoop env vessel ts rest (acc, tr ++ [w], clk + env.writeCost w)
      else
        .error tr

/-- The accepted-signal loop of `ingest_telemetry` (lines 136-140): one
`insert_raw` write per entry of `valid_signals`; a failing insert aborts
with the writes committed so far. -/
def rawLoop (env : Env) (vessel : String) (ts : Timestamp) :
    List (String × ℚ) → List Write × Nat → Except (List Write) (List Write × Nat)
  | [], st => .ok st
  | (name, q) :: rest, (tr, clk) =>
    let w := Write.raw vessel ts name q
    if env.writeOk w then
      rawLoop env vessel ts rest (tr ++ [w], clk + env.writeCost w)
    else
      .error tr

/-- The handler `ingest_telemetry` (`src/routes/telemetry.rs`): returns
the list of committed writes together with the handler result.  The
clock starts at 0 (`total_start`); `validation_start` is taken after
`startCost` and *before* the awaited `vessel_exists` call, exactly as in
the source (line 26 precedes line 27); `validation_ms` is read after the
signal loop (line 132), `ingestion_ms` and `total_ms` after the raw loop
(lines 141-142), and the metrics row is written last (lines 145-153). -/
def ingest_telemetry (env : Env) (payload : TelemetryRequest) :
    List Write × Except ErrResp OkResp :=
  let vessel_id := payload.vesselId
  match env.parse_timestamp payload.timestampUTC with
  | none => ([], .error ⟨400, "Invalid timestampUTC"⟩)
  | some ts =>
    let validation_start := env.startCost
    match env.vessel_exists vessel_id with
    | .error _ => ([], .error internal_err)
    | .ok ex =>
      if !ex then
        ([], .error ⟨403, "Unknown or inactive vessel"⟩)
      else
        match ingestLoop env vessel_id ts payload.signals ([], [], validation_start + env.vesselCost) with
        | .error tr => (tr, .error internal_err)
        | .ok (valid_signals, tr, t2) =>
          let validation_ms := t2 - validation_start
          match rawLoop env vessel_id ts valid_signals (tr, t2) with
          | .error tr2 => (tr2, .error internal_err)
          | .ok (tr2, t4) =>
            let ingestion_ms := t4 - t2
            let total_ms := t4
            let w := Write.metrics vessel_id validation_ms ingestion_ms total_ms
            if env.writeOk w then
              (tr2 ++ [w], .ok ⟨true, vessel_id, valid_signals.length, validation_ms, ingestion_ms, total_ms⟩)
            else
              (tr2, .error internal_err)

/-- The `insert_filtered` writes the signal loop issues, as a pure
function of the registry and the signal entries, in loop order. -/
def quarWrites (reg : String → Option SignalKind) (vessel : String) (ts : Timestamp)
    (sigs : List (String × Json)) : List Write :=
  sigs.filterMap fun p =>
    match classify (reg p.1) p.2 with
    | .accepted _ => none
    | .quarantined fv r => some (.filtered vessel ts p.1 fv r)

/-- The `valid_signals` vector the signal loop builds, as a pure
function of the registry and the signal entries, in loop order. -/
def acceptedOf (reg : String → Option SignalKind) (sigs : List (String × Json)) :
    List (String × ℚ) :=
  sigs.filterMap fun p =>
    match classify (reg p.1) p.2 with
    | .accepted q => some (p.1, q)
    | .quarantined _ _ => none

/-- The `insert_raw` writes of the accepted-signal loop. -/
def rawWrites (vessel : String) (ts : Timestamp) (acc : List (String × ℚ)) : List Write :=
  acc.map fun p => .raw vessel ts p.1 p.2

/-- Total duration of a list of writes under an environment. -/
def sumCost (env : Env) (ws : List Write) : Nat :=
  (ws.map env.writeCost).sum

/-- Whether a write is a metrics row. -/
def isMetricsWrite : Write → Bool
  | .metrics _ _ _ _ => true
  | _ => false

/-- Whether an outcome is accepted. -/
def isAcceptedOutcome : Outcome → Bool
  | .accepted _ => true
  | .quarantined _ _ => false

/-- Whether an outcome is quarantined. -/
def isQuarantinedOutcome : Outcome → Bool
  | .accepted _ => false
  | .quarantined _ _ => true

/-- Number of readings of a signal list classified as accepted. -/
def acceptedCount (reg : String → Option SignalKind) (sigs : List (String × Json)) : Nat :=
  sigs.countP fun p => isAcceptedOutcome (classify (reg p.1) p.2)

/-- Number of readings of a signal list classified as quarantined. -/
def quarantinedCount (reg : String → Option SignalKind) (sigs : List (String × Json)) : Nat :=
  sigs.countP fun p => isQuarantinedOutcome (classify (reg p.1) p.2)

/-- The same environment with every storage operation succeeding (the
vessel answer is kept when the store answered, and defaults to active
when the store itself failed). -/
def succeedEnv (env : Env) : Env :=
  { env with
    vessel_exists := fun v =>
      .ok (match env.vessel_exists v with | .ok b => b | .error _ => true),
    writeOk := fun _ => true }

def envA : Env :=
  { signal_registry := fun n =>
      if n = "engineTemp" then some .Analog
      else if n = "bilgeAlarm" then some .Digital
      else none,
    parse_timestamp := fun s => if s = "2024-01-01T00:00:00Z" then some 0 else none,
    vessel_exists := fun v => .ok (v == "V100"),
    writeOk := fun _ => true,
    writeCost := fun _ => 1,
    vesselCost := 5,
    startCost := 0 }

lemma sumCost_nil (env : Env) : sumCost env [] = 0 := rfl

lemma sumCost_cons (env : Env) (w : Write) (ws : List Write) :
    sumCost env (w :: ws) = env.writeCost w + sumCost env ws := by
  simp [sumCost]

lemma quarWrites_cons_acc {reg : String → Option SignalKind} {vessel : String}
    {ts : Timestamp} {name : String} {value : Json} {q : ℚ} (tl : List (String × Json))
    (h : classify (reg name) value = .accepted q) :
    quarWrites reg vessel ts ((name, value) :: tl) = quarWrites reg vessel ts tl := by
  simp [quarWrites, List.filterMap_cons, h]

lemma quarWrites_cons_quar {reg : String → Option SignalKind} {vessel : String}
    {ts : Timestamp} {name : String} {value : Json} {fv : FVal} {r : Reason}
    (tl : List (String × Json)) (h : classify (reg name) value = .quarantined fv r) :
    quarWrites reg vessel ts ((name, value) :: tl) =
      Write.filtered vessel ts name fv r :: quarWrites reg vessel ts tl := by
  simp [quarWrites, List.filterMap_cons, h]

lemma acceptedOf_cons_acc {reg : String → Option SignalKind}
    {name : String} {value : Json} {q : ℚ} (tl : List (String × Json))
    (h : classify (reg name) value = .accepted q) :
    acceptedOf reg ((name, value) :: tl) = (name, q) :: acceptedOf reg tl := by
  simp [acceptedOf, List.filterMap_cons, h]

lemma acceptedOf_cons_quar {reg : String → Option SignalKind}
    {name : String} {value : Json} {fv : FVal} {r : Reason} (tl : List (String × Json))
    (h : classify (reg name) value = .quarantined fv r) :
    acceptedOf reg ((name, value) :: tl) = acceptedOf reg tl := by
  simp [acceptedOf, List.filterMap_cons, h]

lemma rawWrites_cons (vessel : String) (ts : Timestamp) (name : String) (q : ℚ)
    (tl : List (String × ℚ)) :
    rawWrites vessel ts ((name, q) :: tl) = Write.raw vessel ts name q :: rawWrites vessel ts tl :=
  rfl

lemma ingestLoop_ok (env : Env) (vessel : String) (ts : Timestamp)
    (sigs : List (String × Json)) :
    ∀ (acc : List (String × ℚ)) (tr : List Write) (clk : Nat)
      (acc2 : List (String × ℚ)) (tr2 : List Write) (clk2 : Nat),
      ingestLoop env vessel ts sigs (acc, tr, clk) = .ok (acc2, tr2, clk2) →
      acc2 = acc ++ acceptedOf env.signal_registry sigs ∧
      tr2 = tr ++ quarWrites env.signal_registry vessel ts sigs ∧
      clk2 = clk + sumCost env (quarWrites env.signal_registry vessel ts sigs) := by
  induction sigs with
  | nil =>
    intro acc tr clk acc2 tr2 clk2 h
    simp only [ingestLoop, Except.ok.injEq, Prod.mk.injEq] at h
    obtain ⟨h1, h2, h3⟩ := h
    simp [← h1, ← h2, ← h3, acceptedOf, quarWrites, sumCost]
  | cons hd tl ih =>
    obtain ⟨name, value⟩ := hd
    intro acc tr clk acc2 tr2 clk2 h
    rcases hcl : classify (env.signal_registry name) value with q | ⟨fv, r⟩
    · simp only [ingestLoop, hcl] at h
      obtain ⟨h1, h2, h3⟩ := ih _ _ _ _ _ _ h
      rw [acceptedOf_cons_acc tl hcl, quarWrites_cons_acc tl hcl]
      exact ⟨by simp [h1, List.append_assoc], h2, h3⟩
    · cases hw : env.writeOk (Write.filtered vessel ts name fv r) with
      | false =>
        rw [ingestLoop] at h
        rw [hcl] at h
        simp only [hw, Bool.false_eq_true, if_false] at h
        exact absurd h (by simp)
      | true =>
        simp only [ingestLoop, hcl, hw, if_true] at h
        obtain ⟨h1, h2, h3⟩ := ih _ _ _ _ _ _ h
        rw [acceptedOf_cons_quar tl hcl, quarWrites_cons_quar tl hcl, sumCost_cons]
        exact ⟨h1, by simp [h2, List.append_assoc], by omega⟩

lemma ingestLoop_allOk (env : Env) (vessel : String) (ts : Timestamp)
    (sigs : List (String × Json)) :
    ∀ (acc : List (String × ℚ)) (tr : List Write) (clk : Nat),
      (∀ w ∈ quarWrites env.signal_registry vessel ts sigs, env.writeOk w = true) →
      ingestLoop env vessel ts sigs (acc, tr, clk) =
        .ok (acc ++ acceptedOf env.signal_registry sigs,
             tr ++ quarWrites env.signal_registry vessel ts sigs,
             clk + sumCost env (quarWrites env.signal_registry vessel ts sigs)) := by
  induction sigs with
  | nil =>
    intro acc tr clk _
    simp [ingestLoop, acceptedOf, quarWrites, sumCost]
  | cons hd tl ih =>
    obtain ⟨name, value⟩ := hd
    intro acc tr clk hok
    rcases hcl : classify (env.signal_registry name) value with q | ⟨fv, r⟩
    · rw [quarWrites_cons_acc tl hcl] at hok
      simp only [ingestLoop, hcl, ih _ _ _ hok]
      rw [acceptedOf_cons_acc tl hcl, quarWrites_cons_acc tl hcl]
      simp [List.append_assoc]
    · rw [quarWrites_cons_quar tl hcl] at hok
      have hw : env.writeOk (Write.filtered vessel ts name fv r) = true :=
        hok _ (by simp)
      have hok2 : ∀ w ∈ quarWrites env.signal_registry vessel ts tl, env.writeOk w = true :=
        fun w hw2 => hok w (by simp [hw2])
      simp only [ingestLoop, hcl, hw, if_true, ih _ _ _ hok2]
      rw [acceptedOf_cons_quar tl hcl, quarWrites_cons_quar tl hcl, sumCost_cons]
      simp only [Except.ok.injEq, Prod.mk.injEq]
      exact ⟨by trivial, by simp [List.append_assoc], by omega⟩

lemma ingestLoop_error (env : Env) (vessel : String) (ts : Timestamp)
    (sigs : List (String × Json)) :
    ∀ (acc : List (String × ℚ)) (tr : List Write) (clk : Nat) (tr2 : List Write),
      ingestLoop env vessel ts sigs (acc, tr, clk) = .error tr2 →
      ∃ pre, tr2 = tr ++ pre ∧ pre <+: quarWrites env.signal_registry vessel ts sigs := by
  induction sigs with
  | nil =>
    intro acc tr clk tr2 h
    simp [ingestLoop] at h
  | cons hd tl ih =>
    obtain ⟨name, value⟩ := hd
    intro acc tr clk tr2 h
    rcases hcl : classify (env.signal_registry name) value with q | ⟨fv, r⟩
    · simp only [ingestLoop, hcl] at h
      obtain ⟨pre, hpre1, hpre2⟩ := ih _ _ _ _ h
      rw [quarWrites_cons_acc tl hcl]
      exact ⟨pre, hpre1, hpre2⟩
    · cases hw : env.writeOk (Write.filtered vessel ts name fv r) with
      | false =>
        simp only [ingestLoop, hcl, hw, Bool.false_eq_true, if_false, Except.error.injEq] at h
        refine ⟨[], by simp [← h], by simp⟩
      | true =>
        simp only [ingestLoop, hcl, hw, if_true] at h
        obtain ⟨pre, hpre1, hpre2⟩ := ih _ _ _ _ h
        refine ⟨Write.filtered vessel ts name fv r :: pre, by simp [hpre1], ?_⟩
        rw [quarWrites_cons_quar tl hcl]
        exact List.cons_prefix_cons.mpr ⟨rfl, hpre2⟩

lemma rawLoop_ok (env : Env) (vessel : String) (ts : Timestamp)
    (acc : List (String × ℚ)) :
    ∀ (tr : List Write) (clk : Nat) (tr2 : List Write) (clk2 : Nat),
      rawLoop env vessel ts acc (tr, clk) = .ok (tr2, clk2) →
      tr2 = tr ++ rawWrites vessel ts acc ∧
      clk2 = clk + sumCost env (rawWrites vessel ts acc) := by
  induction acc with
  | nil =>
    intro tr clk tr2 clk2 h
    simp only [rawLoop, Except.ok.injEq, Prod.mk.injEq] at h
    obtain ⟨h1, h2⟩ := h
    simp [← h1, ← h2, rawWrites, sumCost]
  | cons hd tl ih =>
    obtain ⟨name, q⟩ := hd
    intro tr clk tr2 clk2 h
    cases hw : env.writeOk (Write.raw vessel ts name q) with
    | false =>
      simp only [rawLoop, hw, Bool.false_eq_true, if_false] at h
      exact absurd h (by simp)
    | true =>
      simp only [rawLoop, hw, if_true] at h
      obtain ⟨h1, h2⟩ := ih _ _ _ _ h
      rw [rawWrites_cons, sumCost_cons]
      exact ⟨by simp [h1, List.append_assoc], by omega⟩

lemma rawLoop_allOk (env : Env) (vessel : String) (ts : Timestamp)
    (acc : List (String × ℚ)) :
    ∀ (tr : List Write) (clk : Nat),
      (∀ w ∈ rawWrites vessel ts acc, env.writeOk w = true) →
      rawLoop env vessel ts acc (tr, clk) =
        .ok (tr ++ rawWrites vessel ts acc, clk + sumCost env (rawWrites vessel ts acc)) := by
  induction acc with
  | nil =>
    intro tr clk _
    simp [rawLoop, rawWrites, sumCost]
  | cons hd tl ih =>
    obtain ⟨name, q⟩ := hd
    intro tr clk hok
    rw [rawWrites_cons] at hok
    have hw : env.writeOk (Write.raw vessel ts name q) = true :=
      hok _ (by simp)
    have hok2 : ∀ w ∈ rawWrites vessel ts tl, env.writeOk w = true :=
      fun w hw2 => hok w (by simp [hw2])
    simp only [rawLoop, hw, if_true, ih _ _ hok2]
    rw [rawWrites_cons, sumCost_cons]
    simp only [Except.ok.injEq, Prod.mk.injEq]
    exact ⟨by simp [List.append_assoc], by omega⟩

lemma rawLoop_error (env : Env) (vessel : String) (ts : Timestamp)
    (acc : List (String × ℚ)) :
    ∀ (tr : List Write) (clk : Nat) (tr2 : List Write),
      rawLoop env vessel ts acc (tr, clk) = .error tr2 →
      ∃ pre, tr2 = tr ++ pre ∧ pre <+: rawWrites vessel ts acc := by
  induction acc with
  | nil =>
    intro tr clk tr2 h
    simp [rawLoop] at h
  | cons hd tl ih =>
    obtain ⟨name, q⟩ := hd
    intro tr clk tr2 h
    cases hw : env.writeOk (Write.raw vessel ts name q) with
    | false =>
      simp only [rawLoop, hw, Bool.false_eq_true, if_false, Except.error.injEq] at h
      refine ⟨[], by simp [← h], by simp⟩
    | true =>
      simp only [rawLoop, hw, if_true] at h
      obtain ⟨pre, hpre1, hpre2⟩ := ih _ _ _ h
      refine ⟨Write.raw vessel ts name q :: pre, by simp [hpre1], ?_⟩
      rw [rawWrites_cons]
      exact List.cons_prefix_cons.mpr ⟨rfl, hpre2⟩

/-- The `insert_filtered` writes of one request. -/
def qWOf (env : Env) (req : TelemetryRequest) (ts : Timestamp) : List Write :=
  quarWrites env.signal_registry req.vesselId ts req.signals

/-- The `insert_raw` writes of one request. -/
def rWOf (env : Env) (req : TelemetryRequest) (ts : Timestamp) : List Write :=
  rawWrites req.vesselId ts (acceptedOf env.signal_registry req.signals)

/-- The response of a fully successful request. -/
def okRespOf (env : Env) (req : TelemetryRequest) (ts : Timestamp) : OkResp :=
  { ok := true
    vesselId := req.vesselId
    validSignals := (acceptedOf env.signal_registry req.signals).length
    validationMs := env.vesselCost + sumCost env (qWOf env req ts)
    ingestionMs := sumCost env (rWOf env req ts)
    totalMs := env.startCost + env.vesselCost + sumCost env (qWOf env req ts)
      + sumCost env (rWOf env req ts) }

/-- The metrics row of a fully successful request. -/
def metricsWriteOf (env : Env) (req : TelemetryRequest) (ts : Timestamp) : Write :=
  .metrics req.vesselId (okRespOf env req ts).validationMs (okRespOf env req ts).ingestionMs
    (okRespOf env req ts).totalMs

/-- The full write trace of a fully successful request. -/
def successTrace (env : Env) (req : TelemetryRequest) (ts : Timestamp) : List Write :=
  qWOf env req ts ++ rWOf env req ts ++ [metricsWriteOf env req ts]

lemma ingest_ok_spec {env : Env} {req : TelemetryRequest} {tr : List Write} {r : OkResp}
    (h : ingest_telemetry env req = (tr, .ok r)) :
    ∃ ts, env.parse_timestamp req.timestampUTC = some ts ∧
      env.vessel_exists req.vesselId = .ok true ∧
      r = okRespOf env req ts ∧ tr = successTrace env req ts ∧
      env.writeOk (metricsWriteOf env req ts) = true := by
  rw [ingest_telemetry] at h
  cases hp : env.parse_timestamp req.timestampUTC with
  | none =>
    rw [hp] at h
    exact absurd h (by simp)
  | some ts =>
    rw [hp] at h
    refine ⟨ts, rfl, ?_⟩
    cases hv : env.vessel_exists req.vesselId with
    | error u =>
      rw [hv] at h
      exact absurd h (by simp [internal_err])
    | ok b =>
      rw [hv] at h
      cases b with
      | false => exact absurd h (by simp)
      | true =>
        simp only [Bool.not_true, Bool.false_eq_true, if_false] at h
        refine ⟨rfl, ?_⟩
        cases hing : ingestLoop env req.vesselId ts req.signals
            ([], [], env.startCost + env.vesselCost) with
        | error tr1 =>
          rw [hing] at h
          exact absurd h (by simp [internal_err])
        | ok st =>
          obtain ⟨acc2, tr2, t2⟩ := st
          rw [hing] at h
          obtain ⟨hacc, htr, hclk⟩ := ingestLoop_ok env _ _ _ _ _ _ _ _ _ hing
          simp only [List.nil_append] at hacc htr
          subst hacc htr hclk
          dsimp only at h
          cases hraw : rawLoop env req.vesselId ts (acceptedOf env.signal_registry req.signals)
              (quarWrites env.signal_registry req.vesselId ts req.signals,
               env.startCost + env.vesselCost
                 + sumCost env (quarWrites env.signal_registry req.vesselId ts req.signals)) with
          | error tr3 =>
            rw [hraw] at h
            exact absurd h (by simp [internal_err])
          | ok st2 =>
            obtain ⟨tr3, t4⟩ := st2
            rw [hraw] at h
            obtain ⟨htr3, ht4⟩ := rawLoop_ok env _ _ _ _ _ _ _ hraw
            subst htr3 ht4
            dsimp only at h
            set Q := quarWrites env.signal_registry req.vesselId ts req.signals with hQ
            set R := rawWrites req.vesselId ts (acceptedOf env.signal_registry req.signals) with hR
            have hval : env.startCost + env.vesselCost + sumCost env Q - env.startCost
                = env.vesselCost + sumCost env Q := by omega
            have hing2 : env.startCost + env.vesselCost + sumCost env Q + sumCost env R
                - (env.startCost + env.vesselCost + sumCost env Q) = sumCost env R := by omega
            rw [hval, hing2] at h
            cases hm : env.writeOk (Write.metrics req.vesselId (env.vesselCost + sumCost env Q)
                (sumCost env R)
                (env.startCost + env.vesselCost + sumCost env Q + sumCost env R)) with
            | false =>
              rw [hm] at h
              exact absurd h (by simp [internal_err])
            | true =>
              rw [hm] at h
              simp only [if_true, Prod.mk.injEq, Except.ok.injEq] at h
              obtain ⟨h1, h2⟩ := h
              have hracc : r.validSignals = (acceptedOf env.signal_registry req.signals).length := by
                rw [← h2]
              refine ⟨by rw [← h2]; rfl, ?_, ?_⟩
              · rw [← h1]
                simp [successTrace, qWOf, rWOf, metricsWriteOf, okRespOf, hQ, hR,
                  List.append_assoc]
              · simpa [metricsWriteOf, okRespOf, qWOf, rWOf, hQ, hR] using hm

lemma ingest_allOk (env : Env) (req : TelemetryRequest) (ts : Timestamp)
    (hp : env.parse_timestamp req.timestampUTC = some ts)
    (hv : env.vessel_exists req.vesselId = .ok true)
    (hw : ∀ w, env.writeOk w = true) :
    ingest_telemetry env req = (successTrace env req ts, .ok (okRespOf env req ts)) := by
  have h1 := ingestLoop_allOk env req.vesselId ts req.signals [] []
    (env.startCost + env.vesselCost) (fun w _ => hw w)
  have h2 := rawLoop_allOk env req.vesselId ts (acceptedOf env.signal_registry req.signals)
    (quarWrites env.signal_registry req.vesselId ts req.signals)
    (env.startCost + env.vesselCost
      + sumCost env (quarWrites env.signal_registry req.vesselId ts req.signals))
    (fun w _ => hw w)
  rw [ingest_telemetry, hp, hv]
  dsimp only
  simp only [List.nil_append] at h1
  rw [h1]
  dsimp only
  rw [h2]
  dsimp only
  rw [hw _]
  simp only [if_true]
  set Q := quarWrites env.signal_registry req.vesselId ts req.signals with hQ
  set R := rawWrites req.vesselId ts (acceptedOf env.signal_registry req.signals) with hR
  have hval : env.startCost + env.vesselCost + sumCost env Q - env.startCost
      = env.vesselCost + sumCost env Q := by omega
  have hing2 : env.startCost + env.vesselCost + sumCost env Q + sumCost env R
      - (env.startCost + env.vesselCost + sumCost env Q) = sumCost env R := by omega
  rw [hval, hing2]
  simp [successTrace, okRespOf, metricsWriteOf, qWOf, rWOf, hQ, hR, List.append_assoc]

lemma ingest_error_cases {env : Env} {req : TelemetryRequest} {tr : List Write} {e : ErrResp}
    (h : ingest_telemetry env req = (tr, .error e)) :
    (e = ⟨400, "Invalid timestampUTC"⟩ ∧ tr = []) ∨
    (e = ⟨403, "Unknown or inactive vessel"⟩ ∧ tr = []) ∨
    (e = internal_err ∧
      (tr = [] ∨ ∃ ts, env.parse_timestamp req.timestampUTC = some ts ∧
        env.vessel_exists req.vesselId = .ok true ∧
        tr <+: qWOf env req ts ++ rWOf env req ts)) := by
  rw [ingest_telemetry] at h
  cases hp : env.parse_timestamp req.timestampUTC with
  | none =>
    rw [hp] at h
    simp only [Prod.mk.injEq, Except.error.injEq] at h
    exact Or.inl ⟨h.2.symm, h.1.symm⟩
  | some ts =>
    rw [hp] at h
    cases hv : env.vessel_exists req.vesselId with
    | error u =>
      rw [hv] at h
      simp only [Prod.mk.injEq, Except.error.injEq] at h
      exact Or.inr (Or.inr ⟨h.2.symm, Or.inl h.1.symm⟩)
    | ok b =>
      rw [hv] at h
      cases b with
      | false =>
        simp only [Bool.not_false, if_true, Prod.mk.injEq, Except.error.injEq] at h
        exact Or.inr (Or.inl ⟨h.2.symm, h.1.symm⟩)
      | true =>
        simp only [Bool.not_true, Bool.false_eq_true, if_false] at h
        refine Or.inr (Or.inr ?_)
        cases hing : ingestLoop env req.vesselId ts req.signals
            ([], [], env.startCost + env.vesselCost) with
        | error tr1 =>
          rw [hing] at h
          dsimp only at h
          simp only [Prod.mk.injEq, Except.error.injEq] at h
          obtain ⟨htr, he⟩ := h
          obtain ⟨pre, hpre1, hpre2⟩ := ingestLoop_error env _ _ _ _ _ _ _ hing
          refine ⟨he.symm, Or.inr ⟨ts, rfl, rfl, ?_⟩⟩
          rw [← htr, hpre1]
          simp only [List.nil_append]
          exact hpre2.trans (List.prefix_append _ _)
        | ok st =>
          obtain ⟨acc2, tr2, t2⟩ := st
          rw [hing] at h
          obtain ⟨hacc, htr, hclk⟩ := ingestLoop_ok env _ _ _ _ _ _ _ _ _ hing
          simp only [List.nil_append] at hacc htr
          subst hacc htr hclk
          dsimp only at h
          cases hraw : rawLoop env req.vesselId ts (acceptedOf env.signal_registry req.signals)
              (quarWrites env.signal_registry req.vesselId ts req.signals,
               env.startCost + env.vesselCost
                 + sumCost env (quarWrites env.signal_registry req.vesselId ts req.signals)) with
          | error tr3 =>
            rw [hraw] at h
            dsimp only at h
            simp only [Prod.mk.injEq, Except.error.injEq] at h
            obtain ⟨htr, he⟩ := h
            obtain ⟨pre, hpre1, hpre2⟩ := rawLoop_error env _ _ _ _ _ _ hraw
            refine ⟨he.symm, Or.inr ⟨ts, rfl, rfl, ?_⟩⟩
            rw [← htr, hpre1]
            obtain ⟨t, ht⟩ := hpre2
            exact ⟨t, by rw [qWOf, rWOf, List.append_assoc, ht]⟩
          | ok st2 =>
            obtain ⟨tr3, t4⟩ := st2
            rw [hraw] at h
            obtain ⟨htr3, ht4⟩ := rawLoop_ok env _ _ _ _ _ _ _ hraw
            subst htr3 ht4
            dsimp only at h
            cases hm : env.writeOk (Write.metrics req.vesselId
                (env.startCost + env.vesselCost
                  + sumCost env (quarWrites env.signal_registry req.vesselId ts req.signals)
                  - env.startCost)
                (env.startCost + env.vesselCost
                  + sumCost env (quarWrites env.signal_registry req.vesselId ts req.signals)
                  + sumCost env (rawWrites req.vesselId ts
                      (acceptedOf env.signal_registry req.signals))
                  - (env.startCost + env.vesselCost
                    + sumCost env (quarWrites env.signal_registry req.vesselId ts req.signals)))
                (env.startCost + env.vesselCost
                  + sumCost env (quarWrites env.signal_registry req.vesselId ts req.signals)
                  + sumCost env (rawWrites req.vesselId ts
                      (acceptedOf env.signal_registry req.signals)))) with
            | false =>
              rw [hm] at h
              simp only [Bool.false_eq_true, if_false, Prod.mk.injEq, Except.error.injEq] at h
              obtain ⟨htr, he⟩ := h
              exact ⟨he.symm, Or.inr ⟨ts, rfl, rfl, by rw [← htr, qWOf, rWOf]⟩⟩
            | true =>
              rw [hm] at h
              simp only [if_true, Prod.mk.injEq] at h
              exact absurd h.2 (by simp)

lemma succeedEnv_successTrace (env : Env) (req : TelemetryRequest) (ts : Timestamp) :
    successTrace (succeedEnv env) req ts = successTrace env req ts := rfl

lemma succeedEnv_vessel_ok (env : Env) (v : String) (b : Bool)
    (h : env.vessel_exists v = .ok b) : (succeedEnv env).vessel_exists v = .ok b := by
  simp [succeedEnv, h]

lemma quarWrites_not_metrics {reg : String → Option SignalKind} {vessel : String}
    {ts : Timestamp} {sigs : List (String × Json)} :
    ∀ w ∈ quarWrites reg vessel ts sigs, isMetricsWrite w = false := by
  intro w hw
  simp only [quarWrites, List.mem_filterMap] at hw
  obtain ⟨p, _, hp2⟩ := hw
  rcases hcl : classify (reg p.1) p.2 with q | ⟨fv, r⟩ <;> rw [hcl] at hp2
  · exact absurd hp2 (by simp)
  · simp only [Option.some.injEq] at hp2
    rw [← hp2]
    rfl

lemma rawWrites_not_metrics {vessel : String} {ts : Timestamp} {acc : List (String × ℚ)} :
    ∀ w ∈ rawWrites vessel ts acc, isMetricsWrite w = false := by
  intro w hw
  simp only [rawWrites, List.mem_map] at hw
  obtain ⟨p, _, hp⟩ := hw
  rw [← hp]
  rfl

@[simp] lemma isAcceptedOutcome_accepted (q : ℚ) :
    isAcceptedOutcome (.accepted q) = true := rfl

@[simp] lemma isAcceptedOutcome_quarantined (fv : FVal) (r : Reason) :
    isAcceptedOutcome (.quarantined fv r) = false := rfl

@[simp] lemma isQuarantinedOutcome_accepted (q : ℚ) :
    isQuarantinedOutcome (.accepted q) = false := rfl

@[simp] lemma isQuarantinedOutcome_quarantined (fv : FVal) (r : Reason) :
    isQuarantinedOutcome (.quarantined fv r) = true := rfl

lemma acceptedOf_length (reg : String → Option SignalKind) (sigs : List (String × Json)) :
    (acceptedOf reg sigs).length = acceptedCount reg sigs := by
  induction sigs with
  | nil => rfl
  | cons hd tl ih =>
    obtain ⟨name, value⟩ := hd
    simp only [acceptedCount, List.countP_cons] at ih ⊢
    rcases hcl : classify (reg name) value with q | ⟨fv, r⟩
    · rw [acceptedOf_cons_acc tl hcl]
      simp [hcl, ih]
    · rw [acceptedOf_cons_quar tl hcl]
      simp [hcl, ih]

lemma accepted_add_quarantined (reg : String → Option SignalKind)
    (sigs : List (String × Json)) :
    acceptedCount reg sigs + quarantinedCount reg sigs = sigs.length := by
  induction sigs with
  | nil => rfl
  | cons hd tl ih =>
    obtain ⟨name, value⟩ := hd
    simp only [acceptedCount, quarantinedCount, List.countP_cons, List.length_cons] at ih ⊢
    rcases hcl : classify (reg name) value with q | ⟨fv, r⟩ <;> simp [hcl] <;> omega

/-- C2: an analog-kind reading with a float JSON value v is Accepted with
value v iff 1.0 ≤ v ≤ 65535.0; a float outside that range is Quarantined
with reason out_of_range and v stored; any non-float JSON value for an
analog name (including JSON integers) is Quarantined(type_mismatch, NaN). -/
theorem spec_c2 :
    (∀ q : ℚ, (classify (some SignalKind.Analog) (Json.num (JsonNum.float q))
        = Outcome.accepted q ↔ ((1 : ℚ) ≤ q ∧ q ≤ (65535 : ℚ)))) ∧
    (∀ q : ℚ, ¬((1 : ℚ) ≤ q ∧ q ≤ (65535 : ℚ)) →
      classify (some SignalKind.Analog) (Json.num (JsonNum.float q))
        = Outcome.quarantined (FVal.val q) Reason.out_of_range) ∧
    (∀ v : Json, isFloatJson v = false →
      classify (some SignalKind.Analog) v
        = Outcome.quarantined FVal.nan Reason.type_mismatch) := by
  refine ⟨?_, ?_, ?_⟩
  · intro q
    by_cases h : (1 : ℚ) ≤ q ∧ q ≤ (65535 : ℚ) <;>
      simp [classify, JsonNum.is_f64, JsonNum.as_f64, h]
  · intro q h
    simp [classify, JsonNum.is_f64, JsonNum.as_f64, h]
  · intro v hv
    cases v with
    | num n =>
      simp only [isFloatJson] at hv
      simp [classify, hv]
    | str s => rfl
    | bool b => rfl
    | null => rfl
    | arr => rfl
    | obj => rfl

/-- C2 witness: 42.0 in range is accepted, 70000.0 is out_of_range, and
an integer-typed reading for an analog name is a type mismatch. -/
theorem spec_c2_witness :
    classify (some SignalKind.Analog) (Json.num (JsonNum.float 42)) = Outcome.accepted 42 ∧
    classify (some SignalKind.Analog) (Json.num (JsonNum.float 70000))
      = Outcome.quarantined (FVal.val 70000) Reason.out_of_range ∧
    classify (some SignalKind.Analog) (Json.num (JsonNum.posInt 7))
      = Outcome.quarantined FVal.nan Reason.type_mismatch :=
  ⟨(spec_c2.1 42).mpr (by norm_num),
   spec_c2.2.1 70000 (by norm_num),
   spec_c2.2.2 (Json.num (JsonNum.posInt 7)) rfl⟩

/-- C3 (amended): a reading whose name is absent from the registry is
always Quarantined with reason unknown_signal; the stored value is the
numeric value converted to a double (`as_f64`: exact for floats and for
integers of magnitude up to 2^53, rounded to the nearest double above
that), and the NaN placeholder for non-numeric values. -/
theorem spec_c3 :
    (∀ n : JsonNum, classify none (Json.num n)
        = Outcome.quarantined (FVal.val n.as_f64) Reason.unknown_signal) ∧
    (∀ v : Json, isNumericJson v = false →
      classify none v = Outcome.quarantined FVal.nan Reason.unknown_signal) := by
  constructor
  · intro n
    rfl
  · intro v hv
    cases v with
    | num n => simp [isNumericJson] at hv
    | str s => rfl
    | bool b => rfl
    | null => rfl
    | arr => rfl
    | obj => rfl

/-- C3 witness: an unknown numeric reading stores its value, an unknown
string reading stores the NaN placeholder. -/
theorem spec_c3_witness :
    classify none (Json.num (JsonNum.float 7))
      = Outcome.quarantined (FVal.val (JsonNum.float 7).as_f64) Reason.unknown_signal ∧
    classify none (Json.str "abc") = Outcome.quarantined FVal.nan Reason.unknown_signal :=
  ⟨spec_c3.1 (JsonNum.float 7), spec_c3.2 (Json.str "abc") rfl⟩

/-- C3 counterexample: an unknown-name reading with integer value 2^53+1
is stored as the rounded double 2^53, not the reading's numeric value,
because serde's `as_f64` performs the rounding `n as f64` cast. -/
theorem spec_c3_counterexample :
    classify none (Json.num (JsonNum.posInt (2 ^ 53 + 1)))
      = Outcome.quarantined (FVal.val (2 ^ 53 : ℚ)) Reason.unknown_signal ∧
    (2 ^ 53 : ℚ) ≠ (2 ^ 53 + 1 : ℚ) := by
  exact ⟨by decide, by norm_num⟩

/-- C10: a registry row whose signal_type is neither "digital" nor
"analog" is neither an error nor skipped: the loader registers the name
with kind Analog. -/
theorem spec_c10 (rows : List (String × String)) (n t : String)
    (h1 : t ≠ "digital") (h2 : t ≠ "analog") :
    load_signal_registry (rows ++ [(n, t)]) n = some SignalKind.Analog := by
  rw [load_signal_registry, List.foldl_append]
  rcases eq_or_ne t "analog" with h | h
  · exact absurd h h2
  · simp [h1, h]

/-- C10 witness: a row typed "weird" is loaded with kind Analog. -/
theorem spec_c10_witness :
    load_signal_registry [("sigX", "weird")] "sigX" = some SignalKind.Analog :=
  spec_c10 [] "sigX" "weird" (by decide) (by decide)

def reqA : TelemetryRequest :=
  { vesselId := "V100", timestampUTC := "2024-01-01T00:00:00Z", epochUTC := none,
    signals := [("engineTemp", .num (.float 42)), ("bilgeAlarm", .num (.posInt 2))] }

def traceA : List Write :=
  [.filtered "V100" 0 "bilgeAlarm" (.val 2) .out_of_range,
   .raw "V100" 0 "engineTemp" 42,
   .metrics "V100" 6 1 7]

def okRespA : OkResp := ⟨true, "V100", 1, 6, 1, 7⟩

def reqBadTs : TelemetryRequest :=
  { vesselId := "V100", timestampUTC := "not-a-timestamp", epochUTC := none,
    signals := [("engineTemp", .num (.float 42))] }

def reqV999 : TelemetryRequest :=
  { vesselId := "V999", timestampUTC := "2024-01-01T00:00:00Z", epochUTC := none,
    signals := [] }

def envFail : Env :=
  { envA with writeOk := fun _ => false }

def reqQuar : TelemetryRequest :=
  { vesselId := "V100", timestampUTC := "2024-01-01T00:00:00Z", epochUTC := none,
    signals := [("bilgeAlarm", .num (.posInt 2))] }

/-- C4: for every request that completes successfully, validSignals in
the response equals the number of readings classified as Accepted, and
the Accepted count plus the Quarantined count equals the number of
entries in the signal map. -/
theorem spec_c4 (env : Env) (req : TelemetryRequest) (tr : List Write) (r : OkResp)
    (h : ingest_telemetry env req = (tr, Except.ok r)) :
    r.validSignals = acceptedCount env.signal_registry req.signals ∧
    acceptedCount env.signal_registry req.signals
      + quarantinedCount env.signal_registry req.signals = req.signals.length := by
  obtain ⟨ts, hp, hv, hr, htr, hm⟩ := ingest_ok_spec h
  refine ⟨?_, accepted_add_quarantined _ _⟩
  rw [hr]
  exact acceptedOf_length _ _

/-- C4 witness: a concrete successful request with one accepted and one
quarantined reading. -/
theorem spec_c4_witness :
    okRespA.validSignals = acceptedCount envA.signal_registry reqA.signals ∧
    acceptedCount envA.signal_registry reqA.signals
      + quarantinedCount envA.signal_registry reqA.signals = reqA.signals.length :=
  spec_c4 envA reqA traceA okRespA (by rfl)

/-- C5: a malformed timestamp is rejected with status 400 and an unknown
or inactive vessel with status 403, in both cases with no persistence
write of any kind. -/
theorem spec_c5 (env : Env) (req : TelemetryRequest) :
    (env.parse_timestamp req.timestampUTC = none →
      ingest_telemetry env req = ([], Except.error ⟨400, "Invalid timestampUTC"⟩)) ∧
    (∀ ts, env.parse_timestamp req.timestampUTC = some ts →
      env.vessel_exists req.vesselId = Except.ok false →
      ingest_telemetry env req = ([], Except.error ⟨403, "Unknown or inactive vessel"⟩)) := by
  constructor
  · intro h
    rw [ingest_telemetry, h]
  · intro ts h1 h2
    rw [ingest_telemetry, h1]
    dsimp only
    rw [h2]
    exact rfl

/-- C5 witness: concrete rejected requests (bad timestamp, unknown
vessel) with empty write traces. -/
theorem spec_c5_witness :
    ingest_telemetry envA reqBadTs = ([], Except.error ⟨400, "Invalid timestampUTC"⟩) ∧
    ingest_telemetry envA reqV999 = ([], Except.error ⟨403, "Unknown or inactive vessel"⟩) :=
  ⟨(spec_c5 envA reqBadTs).1 (by rfl), (spec_c5 envA reqV999).2 0 (by rfl) (by rfl)⟩

/-- C6: every failing run is a 400 or 403 rejection with no writes, or a
storage failure surfaced as the constant internal error (500, "Internal
Server Error", leaking nothing), whose committed writes are a prefix of
the writes an identical fully-successful run would commit: the pipeline
aborts at the failure and earlier writes stay committed. -/
theorem spec_c6 (env : Env) (req : TelemetryRequest) (tr : List Write) (e : ErrResp)
    (h : ingest_telemetry env req = (tr, Except.error e)) :
    (e.status = 400 ∧ tr = []) ∨ (e.status = 403 ∧ tr = []) ∨
    (e = internal_err ∧ e.message = "Internal Server Error" ∧
      tr <+: (ingest_telemetry (succeedEnv env) req).1) := by
  rcases ingest_error_cases h with ⟨he, ht⟩ | ⟨he, ht⟩ | ⟨he, hrest⟩
  · exact Or.inl ⟨by rw [he], ht⟩
  · exact Or.inr (Or.inl ⟨by rw [he], ht⟩)
  · refine Or.inr (Or.inr ⟨he, by rw [he]; exact rfl, ?_⟩)
    rcases hrest with ht | ⟨ts, hp, hv, hpre⟩
    · rw [ht]
      exact List.nil_prefix
    · have hv2 : (succeedEnv env).vessel_exists req.vesselId = Except.ok true :=
        succeedEnv_vessel_ok env _ true hv
      have hp2 : (succeedEnv env).parse_timestamp req.timestampUTC = some ts := hp
      have hrun := ingest_allOk (succeedEnv env) req ts hp2 hv2 (fun w => rfl)
      rw [hrun]
      dsimp only
      rw [succeedEnv_successTrace]
      refine hpre.trans ?_
      exact ⟨[metricsWriteOf env req ts], rfl⟩

/-- C6 witness: a run whose quarantine write fails returns the constant
internal error with an empty committed trace, a prefix of the successful
run's trace. -/
theorem spec_c6_witness :
    (internal_err.status = 400 ∧ ([] : List Write) = []) ∨
    (internal_err.status = 403 ∧ ([] : List Write) = []) ∨
    (internal_err = internal_err ∧ internal_err.message = "Internal Server Error" ∧
      ([] : List Write) <+: (ingest_telemetry (succeedEnv envFail) reqQuar).1) :=
  spec_c6 envFail reqQuar [] internal_err (by rfl)

/-- C7 (amended): every request commits at most one metrics row: exactly
one, positioned after all filtered-store and raw-store writes, when the
request completes successfully, and none when the request fails.  The
original claim's "exactly one metrics row for every request" fails for
rejected or aborted requests. -/
theorem spec_c7 (env : Env) (req : TelemetryRequest) (tr : List Write)
    (res : Except ErrResp OkResp) (h : ingest_telemetry env req = (tr, res)) :
    ((∃ r, res = Except.ok r) →
      ∃ tr0 m, tr = tr0 ++ [m] ∧ isMetricsWrite m = true ∧
        ∀ w ∈ tr0, isMetricsWrite w = false) ∧
    ((∃ e, res = Except.error e) → ∀ w ∈ tr, isMetricsWrite w = false) := by
  constructor
  · rintro ⟨r, rfl⟩
    obtain ⟨ts, hp, hv, hr, htr, hm⟩ := ingest_ok_spec h
    refine ⟨qWOf env req ts ++ rWOf env req ts, metricsWriteOf env req ts, ?_, rfl, ?_⟩
    · rw [htr]
      rfl
    · intro w hw
      rcases List.mem_append.mp hw with h1 | h2
      · exact quarWrites_not_metrics w h1
      · exact rawWrites_not_metrics w h2
  · rintro ⟨e, rfl⟩
    intro w hw
    rcases ingest_error_cases h with ⟨_, ht⟩ | ⟨_, ht⟩ | ⟨_, hrest⟩
    · subst ht
      cases hw
    · subst ht
      cases hw
    · rcases hrest with ht | ⟨ts, hp, hv, hpre⟩
      · subst ht
        cases hw
      · have hw2 := hpre.sublist.subset hw
        rcases List.mem_append.mp hw2 with h1 | h2
        · exact quarWrites_not_metrics w h1
        · exact rawWrites_not_metrics w h2

/-- C7 witness: a concrete successful request commits exactly one
metrics row, last. -/
theorem spec_c7_witness :
    ∃ tr0 m, traceA = tr0 ++ [m] ∧ isMetricsWrite m = true ∧
      ∀ w ∈ tr0, isMetricsWrite w = false :=
  (spec_c7 envA reqA traceA (Except.ok okRespA) (by rfl)).1 ⟨okRespA, rfl⟩

/-- C7 counterexample: a request rejected for a malformed timestamp
commits zero metrics rows, refuting "exactly one metrics row for every
request". -/
theorem spec_c7_counterexample :
    ((ingest_telemetry envA reqBadTs).1.countP (fun w => isMetricsWrite w)) = 0 ∧
    (0 : Nat) ≠ 1 := ⟨by rfl, by decide⟩

/-- Modelled from the spec (§4.3 step 5): the validation window covers
the classification-plus-quarantine-write phase only. -/
def specValidationMs (env : Env) (req : TelemetryRequest) (ts : Timestamp) : Nat :=
  sumCost env (qWOf env req ts)

/-- Modelled from the spec (§4.3 step 5): the total window covers the
full request, which includes the metrics write. -/
def specTotalMs (env : Env) (req : TelemetryRequest) (ts : Timestamp) : Nat :=
  env.startCost + env.vesselCost + sumCost env (qWOf env req ts)
    + sumCost env (rWOf env req ts) + env.writeCost (metricsWriteOf env req ts)

/-- C8 (amended): on success validationMs measures the vessel-existence
check plus the classification-plus-quarantine-write phase (the
`validation_start` instant is taken before the awaited `vessel_exists`
call), ingestionMs measures the accepted-write phase only, and totalMs
measures the request from its start through the end of the
accepted-write phase, excluding the metrics write. -/
theorem spec_c8 (env : Env) (req : TelemetryRequest) (ts : Timestamp) (tr : List Write)
    (r : OkResp) (hp : env.parse_timestamp req.timestampUTC = some ts)
    (h : ingest_telemetry env req = (tr, Except.ok r)) :
    r.validationMs = env.vesselCost + sumCost env (qWOf env req ts) ∧
    r.ingestionMs = sumCost env (rWOf env req ts) ∧
    r.totalMs = env.startCost + r.validationMs + r.ingestionMs := by
  obtain ⟨ts2, hp2, hv, hr, htr, hm⟩ := ingest_ok_spec h
  rw [hp] at hp2
  have hts : ts2 = ts := (Option.some.inj hp2).symm
  subst hts
  rw [hr]
  refine ⟨rfl, rfl, ?_⟩
  simp only [okRespOf, qWOf, rWOf]
  omega

/-- C8 witness: the amended timing identities at a concrete successful
request. -/
theorem spec_c8_witness :
    okRespA.validationMs = envA.vesselCost + sumCost envA (qWOf envA reqA 0) ∧
    okRespA.ingestionMs = sumCost envA (rWOf envA reqA 0) ∧
    okRespA.totalMs = envA.startCost + okRespA.validationMs + okRespA.ingestionMs :=
  spec_c8 envA reqA 0 traceA okRespA (by rfl) (by rfl)

def envC8 : Env :=
  { signal_registry := fun _ => none,
    parse_timestamp := fun s => if s = "T" then some 0 else none,
    vessel_exists := fun _ => .ok true,
    writeOk := fun _ => true,
    writeCost := fun w => if isMetricsWrite w then 3 else 1,
    vesselCost := 5,
    startCost := 0 }

def reqC8 : TelemetryRequest :=
  { vesselId := "V1", timestampUTC := "T", epochUTC := none, signals := [] }

/-- C8 counterexample: with a 5ms vessel-existence check, no signals and
a 3ms metrics write, the response reports validationMs = 5 although the
spec's validation window (classification plus quarantine writes) is 0ms,
and totalMs = 5 although the full request including the metrics write
takes 8ms. -/
theorem spec_c8_counterexample :
    (ingest_telemetry envC8 reqC8).2
      = Except.ok { ok := true, vesselId := "V1", validSignals := 0,
                    validationMs := 5, ingestionMs := 0, totalMs := 5 } ∧
    specValidationMs envC8 reqC8 0 = 0 ∧ (5 : Nat) ≠ 0 ∧
    specTotalMs envC8 reqC8 0 = 8 ∧ (5 : Nat) ≠ 8 :=
  ⟨by rfl, by rfl, by decide, by rfl, by decide⟩

/-- C9: epochUTC is unused by the core: changing it changes nothing in
the handler's writes or response. -/
theorem spec_c9 (env : Env) (req : TelemetryRequest) (e : Option Int) :
    ingest_telemetry env { req with epochUTC := e } = ingest_telemetry env req := by
  cases req
  rfl

end TelemetryIngestor
